import Mathlib

/-!
Shallow embedding of the sygmail utility (src/sygmail/client.py and
src/sygmail/cli.py): a configuration record persisted to a `.env`-style
key-value file with environment-variable overrides, and a notification
sender that resolves send-time parameters from call arguments and the
configuration before delegating to an external mail transport.

Strings are modelled as Lean `String` / `List Char`; Python truthiness of
optional strings (`None` and `""` are falsy) is made explicit via `pyTruthy`
and the `pyOr`/`pyOrD` combinators.  File content is a `List Char`; the
process environment is a lookup function `String → Option String`.  The
filesystem relevant to attachment resolution is a record of query functions.
The external transport (yagmail) is out of scope per the spec: the sender is
modelled up to the pair (transport-constructor arguments, send-call
arguments), plus a wrapper parametrised by an abstract transport function.
-/

/-- `DEFAULT_SUBJECT` from client.py. -/
def DEFAULT_SUBJECT : String := "Process Completed"

/-- `DEFAULT_CONTENTS_TEMPLATE` from client.py. -/
def DEFAULT_CONTENTS_TEMPLATE : String := "{script_name} has finished running."

/-- The six configuration fields of `SygmailConfig`. -/
inductive CfgField
  | from_addr
  | app_password
  | to_
  | subject
  | contents
  | attachments_path
deriving DecidableEq

/-- `ENV_KEYS` from client.py: the fixed environment-variable name of each field. -/
def ENV_KEYS : CfgField → String
  | .from_addr => "SYGMAIL_FROM"
  | .app_password => "SYGMAIL_APP_PASSWORD"
  | .to_ => "SYGMAIL_TO"
  | .subject => "SYGMAIL_SUBJECT"
  | .contents => "SYGMAIL_CONTENTS"
  | .attachments_path => "SYGMAIL_ATTACHMENTS_PATH"

/-- The fields in the declaration order of `ENV_KEYS` (a Python dict preserves
insertion order; `_env_key_to_field` iterates it in that order). -/
def FIELDS : List CfgField :=
  [.from_addr, .app_password, .to_, .subject, .contents, .attachments_path]

/-- The `SygmailConfig` dataclass: six optional string fields, all defaulting
to absent.  The same shape also serves as the `values` dict built by
`_read_env_file` (whose keys are exactly the six field names). -/
structure SygmailConfig where
  from_addr : Option String := none
  app_password : Option String := none
  to_ : Option String := none
  subject : Option String := none
  contents : Option String := none
  attachments_path : Option String := none
deriving DecidableEq

/-- Read one field of a configuration record (Python attribute access /
`values.get(field)`). -/
def getField (c : SygmailConfig) : CfgField → Option String
  | .from_addr => c.from_addr
  | .app_password => c.app_password
  | .to_ => c.to_
  | .subject => c.subject
  | .contents => c.contents
  | .attachments_path => c.attachments_path

/-- Set one field of a configuration record (Python `values[field] = v`). -/
def setField (c : SygmailConfig) (f : CfgField) (v : Option String) : SygmailConfig :=
  match f with
  | .from_addr => { c with from_addr := v }
  | .app_password => { c with app_password := v }
  | .to_ => { c with to_ := v }
  | .subject => { c with subject := v }
  | .contents => { c with contents := v }
  | .attachments_path => { c with attachments_path := v }

/-- Python truthiness of an optional string: `None` and `""` are falsy. -/
def pyTruthy : Option String → Bool
  | none => false
  | some s => !(s == "")

/-- Python `a or b` on two optional strings: `b` when `a` is `None` or `""`. -/
def pyOr (a b : Option String) : Option String :=
  if pyTruthy a then a else b

/-- Python `a or d` where the fallback `d` is a plain string, so the result is
a plain string: `d` when `a` is `None` or `""`. -/
def pyOrD (a : Option String) (d : String) : String :=
  match a with
  | none => d
  | some s => if s == "" then d else s

/-- The exact set of characters stripped by CPython `str.strip()` with no
argument (code points 9-13, 28-32, 0x85, 0xA0, 0x1680, 0x2000-0x200A,
0x2028, 0x2029, 0x202F, 0x205F, 0x3000). -/
def isPySpace (c : Char) : Bool :=
  let n := c.toNat
  (9 ≤ n && n ≤ 13) || (28 ≤ n && n ≤ 32) || n == 133 || n == 160 || n == 5760 ||
    (8192 ≤ n && n ≤ 8202) || n == 8232 || n == 8233 || n == 8239 || n == 8287 ||
    n == 12288

/-- The quote characters stripped by `.strip("\x22'")` in `_read_env_file`. -/
def isQuote (c : Char) : Bool :=
  c == '"' || c == '\''

/-- Python `str.strip(chars)`: drop characters satisfying `p` from both ends. -/
def pyStrip (p : Char → Bool) (l : List Char) : List Char :=
  ((l.dropWhile p).reverse.dropWhile p).reverse

/-- The exact set of line-boundary characters of CPython `str.splitlines`
(code points 10-13, 28-30, 0x85, 0x2028, 0x2029); the `"\r\n"` pair counts
as a single boundary, which `translateNewlines` has already collapsed by
the time `splitBreaks` runs. -/
def isLineBreak (c : Char) : Bool :=
  let n := c.toNat
  n == 10 || n == 11 || n == 12 || n == 13 || n == 28 || n == 29 || n == 30 ||
    n == 133 || n == 8232 || n == 8233

/-- The universal-newline translation performed by `Path.read_text`:
`"\r\n"` and a lone `'\r'` both become `'\n'`. -/
def translateNewlines : List Char → List Char
  | [] => []
  | '\r' :: '\n' :: rest => '\n' :: translateNewlines rest
  | '\r' :: rest => '\n' :: translateNewlines rest
  | c :: rest => c :: translateNewlines rest

/-- `str.splitlines` on `'\r'`-free text: split at every line-boundary
character.  The content written by `_write_env_file` ends in `'\n'`, so a
final empty line appears here where Python drops it — `_read_env_file`
skips empty lines either way, leaving the read result unaffected. -/
def splitBreaks : List Char → List (List Char)
  | [] => [[]]
  | c :: rest =>
    if isLineBreak c then [] :: splitBreaks rest
    else
      match splitBreaks rest with
      | [] => [[c]]
      | l :: ls => (c :: l) :: ls

/-- `Path.read_text` followed by `str.splitlines`, as in `_read_env_file`. -/
def splitLines (l : List Char) : List (List Char) :=
  splitBreaks (translateNewlines l)

/-- Helper for `splitEq`. -/
def splitEqAux (acc : List Char) : List Char → Option (List Char × List Char)
  | [] => none
  | c :: rest => if c = '=' then some (acc.reverse, rest) else splitEqAux (c :: acc) rest

/-- Python `"=" in s` combined with `s.split("=", 1)`: `none` when the line
has no separator, otherwise the parts before and after the first `'='`. -/
def splitEq (l : List Char) : Option (List Char × List Char) :=
  splitEqAux [] l

/-- Python `str.upper()` (ASCII case mapping), used by `_normalize_env_key`. -/
def pyUpper (l : List Char) : List Char :=
  l.map Char.toUpper

/-- `_env_key_to_field` from client.py: the first field whose `ENV_KEYS` entry
equals the (normalised) key. -/
def _env_key_to_field (k : String) : Option CfgField :=
  FIELDS.find? fun f => ENV_KEYS f == k

/-- One loop iteration of `_read_env_file`: strip the line, skip blanks and
comments, skip separator-free lines and empty keys, and record the
quote-stripped value under the matching field. -/
def procLine (vals : SygmailConfig) (line : List Char) : SygmailConfig :=
  let stripped := pyStrip isPySpace line
  if stripped = [] then vals
  else if stripped.head? = some '#' then vals
  else
    match splitEq stripped with
    | none => vals
    | some (k, v) =>
      let key := pyStrip isPySpace k
      let value := pyStrip isQuote (pyStrip isPySpace v)
      if key = [] then vals
      else
        match _env_key_to_field (String.mk (pyUpper key)) with
        | some f => setField vals f (some (String.mk value))
        | none => vals

/-- `_read_env_file` from client.py.  `content = none` models a missing file
(empty dict); otherwise every line is processed in order, later assignments
to the same field overwriting earlier ones. -/
def _read_env_file (content : Option (List Char)) : SygmailConfig :=
  match content with
  | none => {}
  | some text => (splitLines text).foldl procLine {}

/-- The process environment as an injected lookup. -/
def Env : Type := String → Option String

/-- The empty environment (no variables set). -/
def noEnv : Env := fun _ => none

/-- `os.environ.get(key)` followed by `os.environ.get(key.lower())` as in
`SygmailConfig.load`: exact-case name first, then the lowercase name. -/
def envLookup (env : Env) (key : String) : Option String :=
  match env key with
  | some v => some v
  | none => env key.toLower

/-- `SygmailConfig.load` from client.py: file values overridden per field by
the environment variable of the matching fixed name, when present. -/
def SygmailConfig.load (env : Env) (content : Option (List Char)) : SygmailConfig :=
  let file_values := _read_env_file content
  let values : CfgField → Option String := fun f =>
    match envLookup env (ENV_KEYS f) with
    | some v => some v
    | none => getField file_values f
  { from_addr := values .from_addr
    app_password := values .app_password
    to_ := values .to_
    subject := values .subject
    contents := values .contents
    attachments_path := values .attachments_path }

/-- The `data` dict assembled by `SygmailConfig.save`, in insertion order:
the first three fields collapse `None` to `""`, subject and contents fall
back to the fixed defaults when `None` or `""`, and the attachments-path
entry is present exactly when the field is set (even if empty). -/
def SygmailConfig.save_data (c : SygmailConfig) : List (String × String) :=
  [(ENV_KEYS .from_addr, pyOrD c.from_addr ""),
   (ENV_KEYS .app_password, pyOrD c.app_password ""),
   (ENV_KEYS .to_, pyOrD c.to_ ""),
   (ENV_KEYS .subject, pyOrD c.subject DEFAULT_SUBJECT),
   (ENV_KEYS .contents, pyOrD c.contents DEFAULT_CONTENTS_TEMPLATE)]
  ++ (match c.attachments_path with
      | some p => [(ENV_KEYS .attachments_path, p)]
      | none => [])

/-- `"\n".join(lines)` on character lists. -/
def intercalateNl : List (List Char) → List Char
  | [] => []
  | [l] => l
  | l :: rest => l ++ '\n' :: intercalateNl rest

/-- `_write_env_file` from client.py: `KEY=value` lines joined by `'\n'`
with a trailing `'\n'`. -/
def _write_env_file (data : List (String × String)) : List Char :=
  intercalateNl (data.map fun kv => kv.1.data ++ '=' :: kv.2.data) ++ ['\n']

/-- `SygmailConfig.save`: the file content written for a record. -/
def SygmailConfig.save_content (c : SygmailConfig) : List Char :=
  _write_env_file c.save_data

/-- `SygmailConfig.reset_subject_contents` from client.py. -/
def SygmailConfig.reset_subject_contents (c : SygmailConfig) : SygmailConfig :=
  { c with subject := some DEFAULT_SUBJECT, contents := some DEFAULT_CONTENTS_TEMPLATE }

/-- The filesystem as seen by attachment resolution: `Path.is_file`,
`Path.exists`, and `Path.iterdir` (the children of a directory, as path
strings).  Path-string normalisation by `Path`/`str` is not modelled: paths
are opaque strings.  `warnings.warn` calls are pure side effects with no
influence on the returned values and are not modelled. -/
structure FS where
  isFile : String → Bool
  pathExists : String → Bool
  iterFiles : String → List String

/-- `_filter_existing_paths` from client.py: partition paths into regular
files and the rest (an `OSError` from `is_file` also lands a path in the
missing part; here `isFile` already answers `false` for such paths). -/
def _filter_existing_paths (fs : FS) (paths : List String) : List String × List String :=
  (paths.filter fs.isFile, paths.filter fun p => !fs.isFile p)

/-- `_collect_attachments` from client.py: a missing path yields no
attachments, a regular file is a single attachment, a directory contributes
its direct children that are regular files. -/
def _collect_attachments (fs : FS) (attachments_path : String) : List String :=
  if !fs.pathExists attachments_path then []
  else if fs.isFile attachments_path then
    (_filter_existing_paths fs [attachments_path]).1
  else
    (_filter_existing_paths fs ((fs.iterFiles attachments_path).filter fs.isFile)).1

/-- `_normalize_attachments` from client.py for a list-or-`None` argument
(the `isinstance(str/bytes/PathLike)` branch wraps a single value and cannot
arise for the declared `Optional[Iterable[str]]` call shapes modelled here):
`None` and `[]` both give `[]` without touching the filesystem, otherwise
the existing files of the list. -/
def _normalize_attachments (fs : FS) (attachments : Option (List String)) : List String :=
  match attachments with
  | none => []
  | some l => if l.isEmpty then [] else (_filter_existing_paths fs l).1

/-- `os.path.basename`: the part after the last `'/'`. -/
def afterLastSlash (l : List Char) : List Char :=
  (l.reverse.takeWhile fun c => !(c == '/')).reverse

/-- `os.path.basename` on strings. -/
def basename (s : String) : String :=
  String.mk (afterLastSlash s.data)

/-- `_get_script_name` from client.py: the basename of `sys.argv[0]`, or of
the literal `"script"` when `argv` is empty or its first entry is empty. -/
def _get_script_name (argv : List String) : String :=
  basename (match argv with
    | [] => "script"
    | a0 :: _ => if a0 == "" then "script" else a0)

/-- The `{script_name}` placeholder token. -/
def TOKEN : String := "{script_name}"

/-- Model of CPython `str.format(script_name=sn)` as a character scanner.
First argument after `sn` is the scanner state: `none` at top level,
`some acc` inside a replacement field with the reversed field name read so
far.  `{{` and `}}` are literal braces; a `{script_name}` field substitutes
`sn`; any other field name, a lone brace, or an unterminated field fails
(`none`), like the Python call raising.  Conversion/format-spec suffixes
(`!r`, `:spec`) are not modelled and count as failure. -/
def pyFormatAux (sn : List Char) : Option (List Char) → List Char → Option (List Char)
  | none, [] => some []
  | none, c :: rest =>
    if c = '{' then
      match rest with
      | [] => none
      | d :: rest2 =>
        if d = '{' then (pyFormatAux sn none rest2).map fun t => '{' :: t
        else pyFormatAux sn (some []) (d :: rest2)
    else if c = '}' then
      match rest with
      | [] => none
      | d :: rest2 =>
        if d = '}' then (pyFormatAux sn none rest2).map fun t => '}' :: t
        else none
    else (pyFormatAux sn none rest).map fun t => c :: t
  | some _, [] => none
  | some acc, c :: rest =>
    if c = '}' then
      if acc.reverse = "script_name".data then (pyFormatAux sn none rest).map fun t => sn ++ t
      else none
    else pyFormatAux sn (some (c :: acc)) rest

/-- `contents.format(script_name=sn)` on strings, `none` modelling a raised
exception. -/
def pyFormat (contents sn : String) : Option String :=
  (pyFormatAux sn.data none contents.data).map String.mk

/-- Python `"{script_name}" in contents`. -/
def containsToken : List Char → Bool
  | [] => false
  | c :: rest => ((c :: rest).take 13 == TOKEN.data) || containsToken rest

/-- `_render_contents` from client.py: substitute only when the token occurs,
and fall back to the literal template on any substitution failure. -/
def _render_contents (contents sn : String) : String :=
  if containsToken contents.data then
    match pyFormat contents sn with
    | some r => r
    | none => contents
  else contents

/-- The keyword arguments of `Sygmail.send` (other than the free-form
`**kwargs`, which are forwarded to the transport untouched and carry no
resolution logic). -/
structure SendArgs where
  from_addr : Option String := none
  from_ : Option String := none
  to_ : Option String := none
  subject : Option String := none
  contents : Option String := none
  attachments : Option (List String) := none
  attachments_path : Option String := none
deriving DecidableEq

/-- The arguments of the `yagmail.SMTP(resolved_from, app_password)`
constructor. -/
structure Transport where
  from_addr : String
  app_password : String
deriving DecidableEq

/-- The arguments of the `yag.send(...)` call. -/
structure SendCall where
  to_ : String
  subject : String
  contents : String
  attachments : Option (List String)
deriving DecidableEq

/-- `resolved_from = from_addr or from_ or self.config.from_addr`. -/
def resolvedFrom (cfg : SygmailConfig) (a : SendArgs) : Option String :=
  pyOr a.from_addr (pyOr a.from_ cfg.from_addr)

/-- `target = to or self.config.to or resolved_from`. -/
def resolvedTarget (cfg : SygmailConfig) (a : SendArgs) : Option String :=
  pyOr a.to_ (pyOr cfg.to_ (resolvedFrom cfg a))

/-- `Sygmail.send` from client.py, up to the external transport: either the
`ValueError` message, or the pair (constructor arguments, send-call
arguments) handed to yagmail. -/
def Sygmail.sendResolve (cfg : SygmailConfig) (fs : FS) (argv : List String) (a : SendArgs) :
    Except String (Transport × SendCall) :=
  let resolved_from := resolvedFrom cfg a
  let app_password := cfg.app_password
  let target := resolvedTarget cfg a
  if !pyTruthy resolved_from || !pyTruthy app_password || !pyTruthy target then
    .error "from_addr and app_password are required"
  else
    let script_name := _get_script_name argv
    let subject_value := pyOrD a.subject (pyOrD cfg.subject DEFAULT_SUBJECT)
    let contents_value := pyOrD a.contents (pyOrD cfg.contents DEFAULT_CONTENTS_TEMPLATE)
    let contents_rendered := _render_contents contents_value script_name
    let attachments_list := _normalize_attachments fs a.attachments
    let path_value := pyOr a.attachments_path cfg.attachments_path
    let attachments_list :=
      if a.attachments == none && pyTruthy path_value then
        attachments_list ++ _collect_attachments fs (path_value.getD "")
      else attachments_list
    .ok ({ from_addr := resolved_from.getD "", app_password := app_password.getD "" },
         { to_ := target.getD "", subject := subject_value, contents := contents_rendered,
           attachments := if attachments_list.isEmpty then none else some attachments_list })

/-- The error surface of a full `send`: the `ValueError` raised by
validation, or whatever the transport raised, unmodified. -/
inductive SendErr (E : Type) where
  | validation (msg : String)
  | transport (e : E)

/-- `Sygmail.send` composed with an abstract transport: validation errors
are raised before the transport is consulted; a transport error propagates
unwrapped (no retry, no remapping). -/
def Sygmail.sendWith {E : Type} (trSend : Transport → SendCall → Except E Unit)
    (cfg : SygmailConfig) (fs : FS) (argv : List String) (a : SendArgs) :
    Except (SendErr E) Unit :=
  match Sygmail.sendResolve cfg fs argv a with
  | .error m => .error (.validation m)
  | .ok (t, call) =>
    match trSend t call with
    | .error e => .error (.transport e)
    | .ok _ => .ok ()

/-- `CLI_DEFAULT_CONTENTS` from cli.py. -/
def CLI_DEFAULT_CONTENTS : String := "[sygmail notification]"

/-- `_normalize_attachments_arg` from cli.py. -/
def _normalize_attachments_arg (raw : Option (List String)) : Option (List String) :=
  match raw with
  | none => none
  | some l => if l.length = 0 then some [] else some l

/-- The argparse values reaching `run_send` (each `none` when the flag was
not given). -/
structure SendCliArgs where
  from_addr : Option String := none
  to_ : Option String := none
  subject : Option String := none
  contents : Option String := none
  attachments : Option (List String) := none
  attachments_path : Option String := none

/-- `run_send` from cli.py, with the `Sygmail(env_path=...)` construction
abstracted into the already-loaded `cfg`: a missing `--contents` flag is
replaced by `CLI_DEFAULT_CONTENTS` before delegating to `Sygmail.send`. -/
def run_send (cfg : SygmailConfig) (fs : FS) (argv : List String) (args : SendCliArgs) :
    Except String (Transport × SendCall) :=
  let contents := match args.contents with
    | none => some CLI_DEFAULT_CONTENTS
    | some c => some c
  let attachments := _normalize_attachments_arg args.attachments
  Sygmail.sendResolve cfg fs argv
    { from_addr := args.from_addr, from_ := none, to_ := args.to_, subject := args.subject,
      contents := contents, attachments := attachments,
      attachments_path := args.attachments_path }

/-- `_mask_secret` from cli.py. -/
def _mask_secret (value : Option String) : String :=
  match value with
  | none => ""
  | some v =>
    if v == "" then ""
    else if v.length ≤ 4 then "****"
    else "****" ++ String.mk (v.data.reverse.take 4).reverse

/-- The six lines printed by `run_config_show` from cli.py: the credential is
masked unless `--raw` was given, and `None` fields print as empty. -/
def run_config_show_lines (cfg : SygmailConfig) (raw : Bool) : List String :=
  let app_password := if raw then cfg.app_password else some (_mask_secret cfg.app_password)
  ["SYGMAIL_FROM=" ++ pyOrD cfg.from_addr "",
   "SYGMAIL_APP_PASSWORD=" ++ pyOrD app_password "",
   "SYGMAIL_TO=" ++ pyOrD cfg.to_ "",
   "SYGMAIL_SUBJECT=" ++ pyOrD cfg.subject "",
   "SYGMAIL_CONTENTS=" ++ pyOrD cfg.contents "",
   "SYGMAIL_ATTACHMENTS_PATH=" ++ pyOrD cfg.attachments_path ""]

/-- `text.join(sep)` on character lists, for stating the template claim. -/
def joinWith (sep : List Char) : List (List Char) → List Char
  | [] => []
  | [l] => l
  | l :: rest => l ++ (sep ++ joinWith sep rest)

/-- A character list free of both brace characters. -/
def braceFree (l : List Char) : Bool :=
  l.all fun c => !(c == '{') && !(c == '}')

/-! ### Small facts about the Python-truthiness combinators -/

theorem mk_data (s : String) : String.mk s.data = s := rfl

theorem pyTruthy_none : pyTruthy none = false := rfl

theorem pyOr_none (b : Option String) : pyOr none b = b := rfl

theorem pyOr_some_empty (b : Option String) : pyOr (some "") b = b := rfl

theorem pyOrD_none (d : String) : pyOrD none d = d := rfl

theorem pyOrD_some_empty (d : String) : pyOrD (some "") d = d := rfl

theorem pyOrD_some_self (s : String) : pyOrD (some s) "" = s := by
  by_cases h : s = "" <;> simp [pyOrD, h]

/-! ### C8: reset restores the default subject and body and nothing else -/

/-- C8: for every configuration record, `reset_subject_contents` sets the
subject and body template to the fixed defaults and leaves the sender,
credential, recipient and attachments path exactly as they were. -/
theorem spec_C8 (c : SygmailConfig) :
    c.reset_subject_contents.subject = some DEFAULT_SUBJECT ∧
    c.reset_subject_contents.contents = some DEFAULT_CONTENTS_TEMPLATE ∧
    c.reset_subject_contents.from_addr = c.from_addr ∧
    c.reset_subject_contents.app_password = c.app_password ∧
    c.reset_subject_contents.to_ = c.to_ ∧
    c.reset_subject_contents.attachments_path = c.attachments_path :=
  ⟨rfl, rfl, rfl, rfl, rfl, rfl⟩

/-! ### C2: environment variables win over the file -/

/-- C2: for every configuration field, when the matching fixed-name
environment variable is present (exact-case name first, then lowercase),
`load` returns the environment value for that field, whatever the persisted
file content is. -/
theorem spec_C2 (env : Env) (content : Option (List Char)) (f : CfgField) (v : String)
    (h : envLookup env (ENV_KEYS f) = some v) :
    getField (SygmailConfig.load env content) f = some v := by
  cases f <;> simp [SygmailConfig.load, getField, h]

theorem spec_C2_witness :
    envLookup (fun k => if k = "SYGMAIL_FROM" then some "env@x" else none)
        (ENV_KEYS .from_addr) = some "env@x" ∧
    getField
        (SygmailConfig.load (fun k => if k = "SYGMAIL_FROM" then some "env@x" else none)
          (some (SygmailConfig.save_content { from_addr := some "file@x" })))
        .from_addr = some "env@x" :=
  ⟨by decide, spec_C2 _ _ _ _ (by decide)⟩

/-! ### C10: explicit empty-string send arguments fall through the chain -/

/-- C10: in `send`, an explicit empty-string argument for sender, recipient,
subject, or body behaves exactly like an absent argument — the resolution
chain falls through to the configured value or default. -/
theorem spec_C10 (cfg : SygmailConfig) (fs : FS) (argv : List String) (a : SendArgs) :
    Sygmail.sendResolve cfg fs argv { a with from_addr := some "" } =
      Sygmail.sendResolve cfg fs argv { a with from_addr := none } ∧
    Sygmail.sendResolve cfg fs argv { a with to_ := some "" } =
      Sygmail.sendResolve cfg fs argv { a with to_ := none } ∧
    Sygmail.sendResolve cfg fs argv { a with subject := some "" } =
      Sygmail.sendResolve cfg fs argv { a with subject := none } ∧
    Sygmail.sendResolve cfg fs argv { a with contents := some "" } =
      Sygmail.sendResolve cfg fs argv { a with contents := none } := by
  refine ⟨?_, ?_, ?_, ?_⟩ <;>
    simp [Sygmail.sendResolve, resolvedFrom, resolvedTarget, pyOr_some_empty, pyOr_none,
      pyOrD_some_empty, pyOrD_none]

/-! ### C6: recipient resolution chain -/

/-- C6: in `send` the recipient resolves as explicit argument, else the
configured recipient, else the resolved sender; in particular with neither
an explicit nor a configured recipient, the recipient handed to the
transport equals the sender the transport was constructed with. -/
theorem spec_C6 (cfg : SygmailConfig) (fs : FS) (argv : List String) (a : SendArgs)
    (t : Transport) (call : SendCall)
    (h : Sygmail.sendResolve cfg fs argv a = .ok (t, call)) :
    call.to_ = (resolvedTarget cfg a).getD "" ∧
    (a.to_ = none → cfg.to_ = none → call.to_ = t.from_addr) := by
  simp only [Sygmail.sendResolve] at h
  split at h
  · simp at h
  · rw [Except.ok.injEq] at h
    obtain ⟨ht, hc⟩ := Prod.mk.injEq .. ▸ h
    subst ht hc
    refine ⟨rfl, fun ha hcfg => ?_⟩
    simp [resolvedTarget, ha, hcfg, pyOr_none]

/-- A filesystem with no files at all, for concrete witnesses. -/
def fsEmpty : FS :=
  { isFile := fun _ => false, pathExists := fun _ => false, iterFiles := fun _ => [] }

/-- A minimal working configuration, for concrete witnesses. -/
def cfgW : SygmailConfig :=
  { from_addr := some "me@x", app_password := some "pw" }

theorem spec_C6_witness :
    Sygmail.sendResolve cfgW fsEmpty ["p"] {} =
      .ok ({ from_addr := "me@x", app_password := "pw" },
           { to_ := "me@x", subject := DEFAULT_SUBJECT,
             contents := "p has finished running.", attachments := none }) ∧
    SendCall.to_ ({ to_ := "me@x", subject := DEFAULT_SUBJECT,
                    contents := "p has finished running.", attachments := none }) =
      Transport.from_addr ({ from_addr := "me@x", app_password := "pw" }) :=
  ⟨by rfl, (spec_C6 cfgW fsEmpty ["p"] {} _ _ (by rfl)).2 rfl rfl⟩

/-! ### C4: validation precedes the transport; transport errors propagate -/

/-- C4: in `send`, when the resolved sender, the configured credential, or
the resolved recipient is absent or empty, the fixed `ValueError` is the
result for every transport whatsoever (the transport is never consulted);
and when resolution succeeds but the transport fails, its error propagates
unmodified, with no retry. -/
theorem spec_C4 {E : Type} (trSend : Transport → SendCall → Except E Unit)
    (cfg : SygmailConfig) (fs : FS) (argv : List String) (a : SendArgs) :
    ((pyTruthy (resolvedFrom cfg a) = false ∨ pyTruthy cfg.app_password = false ∨
        pyTruthy (resolvedTarget cfg a) = false) →
      Sygmail.sendWith trSend cfg fs argv a =
        .error (.validation "from_addr and app_password are required")) ∧
    (∀ t call e, Sygmail.sendResolve cfg fs argv a = .ok (t, call) →
      trSend t call = .error e →
      Sygmail.sendWith trSend cfg fs argv a = .error (.transport e)) := by
  constructor
  · intro hv
    have hcond : (!pyTruthy (resolvedFrom cfg a) || !pyTruthy cfg.app_password ||
        !pyTruthy (resolvedTarget cfg a)) = true := by
      rcases hv with h | h | h <;> simp [h]
    have hres : Sygmail.sendResolve cfg fs argv a =
        .error "from_addr and app_password are required" := by
      simp only [Sygmail.sendResolve]
      rw [if_pos hcond]
    simp [Sygmail.sendWith, hres]
  · intro t call e hok htr
    simp [Sygmail.sendWith, hok, htr]

theorem spec_C4_witness :
    Sygmail.sendWith (fun _ _ => (Except.ok () : Except Unit Unit)) {} fsEmpty [] {} =
      .error (.validation "from_addr and app_password are required") :=
  (spec_C4 _ _ _ _ _).1 (Or.inl rfl)

/-! ### C9: the CLI send path always uses the fixed CLI body -/

/-- C9: `run_send` invoked without a `--contents` argument hands the fixed
string `CLI_DEFAULT_CONTENTS` to the transport as the body, so neither the
configured body template nor the library default template is ever used on
the CLI send path. -/
theorem spec_C9 (cfg : SygmailConfig) (fs : FS) (argv : List String) (args : SendCliArgs)
    (t : Transport) (call : SendCall)
    (hc : args.contents = none)
    (h : run_send cfg fs argv args = .ok (t, call)) :
    call.contents = CLI_DEFAULT_CONTENTS := by
  simp only [run_send, hc] at h
  simp only [Sygmail.sendResolve] at h
  split at h
  · simp at h
  · rw [Except.ok.injEq] at h
    obtain ⟨ht, hcall⟩ := Prod.mk.injEq .. ▸ h
    subst hcall
    rfl

theorem spec_C9_witness :
    run_send cfgW fsEmpty ["p"] {} =
      .ok ({ from_addr := "me@x", app_password := "pw" },
           { to_ := "me@x", subject := DEFAULT_SUBJECT,
             contents := CLI_DEFAULT_CONTENTS, attachments := none }) ∧
    SendCall.contents ({ to_ := "me@x", subject := DEFAULT_SUBJECT,
                         contents := CLI_DEFAULT_CONTENTS, attachments := none }) =
      CLI_DEFAULT_CONTENTS :=
  ⟨by rfl, spec_C9 cfgW fsEmpty ["p"] {} _ _ rfl (by rfl)⟩

/-! ### C3: explicit empty attachment list versus absent list -/

/-- C3: in `send`, an explicit empty attachment list means the transport
receives `none` (yagmail's "no attachments"), independently of the
filesystem and of any attachments path — the directory scan is suppressed;
an absent list together with a truthy resolved attachments path triggers
the directory/file scan, whose (possibly empty) result is what the
transport receives. -/
theorem spec_C3 (cfg : SygmailConfig) (fs fs2 : FS) (argv : List String) (a : SendArgs) :
    (a.attachments = some [] →
      Sygmail.sendResolve cfg fs argv a = Sygmail.sendResolve cfg fs2 argv a ∧
      ∀ t call, Sygmail.sendResolve cfg fs argv a = .ok (t, call) →
        call.attachments = none) ∧
    (a.attachments = none →
      pyTruthy (pyOr a.attachments_path cfg.attachments_path) = true →
      ∀ t call, Sygmail.sendResolve cfg fs argv a = .ok (t, call) →
        call.attachments =
          if (_collect_attachments fs
                ((pyOr a.attachments_path cfg.attachments_path).getD "")).isEmpty
          then none
          else some (_collect_attachments fs
                ((pyOr a.attachments_path cfg.attachments_path).getD ""))) := by
  constructor
  · intro ha
    have hbeq : (a.attachments == (none : Option (List String))) = false := by
      rw [ha]; rfl
    constructor
    · simp [Sygmail.sendResolve, ha, hbeq, _normalize_attachments]
    · intro t call h
      simp only [Sygmail.sendResolve, ha, hbeq, _normalize_attachments] at h
      split at h
      · simp at h
      · rw [Except.ok.injEq] at h
        obtain ⟨ht, hcall⟩ := Prod.mk.injEq .. ▸ h
        subst hcall
        rfl
  · intro ha hp t call h
    have hbeq : (a.attachments == (none : Option (List String))) = true := by
      rw [ha]; rfl
    simp only [Sygmail.sendResolve, ha, hbeq, hp, _normalize_attachments] at h
    split at h
    · simp at h
    · rw [Except.ok.injEq] at h
      obtain ⟨ht, hcall⟩ := Prod.mk.injEq .. ▸ h
      subst hcall
      simp

theorem spec_C3_witness :
    Sygmail.sendResolve cfgW fsEmpty ["p"] { attachments := some [] } =
      .ok ({ from_addr := "me@x", app_password := "pw" },
           { to_ := "me@x", subject := DEFAULT_SUBJECT,
             contents := "p has finished running.", attachments := none }) ∧
    SendCall.attachments ({ to_ := "me@x", subject := DEFAULT_SUBJECT,
                            contents := "p has finished running.", attachments := none }) =
      none :=
  ⟨by rfl, ((spec_C3 cfgW fsEmpty fsEmpty ["p"] { attachments := some [] }).1 rfl).2
    { from_addr := "me@x", app_password := "pw" }
    { to_ := "me@x", subject := DEFAULT_SUBJECT,
      contents := "p has finished running.", attachments := none } (by rfl)⟩

/-! ### C7: credential masking in config-show -/

theorem mask_secret_long (pw : String) (h : 4 < pw.length) :
    _mask_secret (some pw) = "****" ++ String.mk (pw.data.drop (pw.data.length - 4)) := by
  have hne : (pw == "") = false := by
    refine beq_eq_false_iff_ne.mpr fun hh => ?_
    subst hh
    simp [String.length] at h
  have hlen : ¬ pw.length ≤ 4 := Nat.not_le.mpr h
  simp only [_mask_secret, hne, Bool.false_eq_true, if_false, hlen, if_true]
  rw [← List.rtake_eq_reverse_take_reverse, List.rtake]

theorem mask_secret_short (pw : String) (h1 : pw ≠ "") (h2 : pw.length ≤ 4) :
    _mask_secret (some pw) = "****" := by
  have hne : (pw == "") = false := beq_eq_false_iff_ne.mpr h1
  simp [_mask_secret, hne, h2]

/-- C7 fails as stated: an empty credential has four characters or fewer,
yet config-show (without the raw flag) prints its line differently from any
other short credential's line, so no single fixed mask is printed for
credentials of four characters or fewer. -/
theorem spec_C7_counterexample :
    ("" : String).length ≤ 4 ∧ ("ab" : String).length ≤ 4 ∧
    (run_config_show_lines { app_password := some "" } false).get? 1 ≠
      (run_config_show_lines { app_password := some "ab" } false).get? 1 := by
  decide

/-- C7 (amended): config-show without the raw flag prints, on the credential
line, `****` followed by the last four characters for a credential longer
than four characters, the fixed mask `****` for a nonempty credential of
four characters or fewer, and nothing after the key for an empty
credential; with the raw flag it prints the credential verbatim. -/
theorem spec_C7 (cfg : SygmailConfig) (pw : String) (hpw : cfg.app_password = some pw) :
    (4 < pw.length →
      (run_config_show_lines cfg false).get? 1 =
        some ("SYGMAIL_APP_PASSWORD=" ++
          ("****" ++ String.mk (pw.data.drop (pw.data.length - 4))))) ∧
    (pw ≠ "" → pw.length ≤ 4 →
      (run_config_show_lines cfg false).get? 1 = some "SYGMAIL_APP_PASSWORD=****") ∧
    (pw = "" → (run_config_show_lines cfg false).get? 1 = some "SYGMAIL_APP_PASSWORD=") ∧
    (run_config_show_lines cfg true).get? 1 = some ("SYGMAIL_APP_PASSWORD=" ++ pw) := by
  refine ⟨fun h => ?_, fun h1 h2 => ?_, fun h => ?_, ?_⟩
  · simp [run_config_show_lines, hpw, mask_secret_long pw h, pyOrD_some_self]
  · simp [run_config_show_lines, hpw, mask_secret_short pw h1 h2, pyOrD_some_self]
  · subst h
    simp [run_config_show_lines, hpw, show _mask_secret (some "") = "" from rfl,
      pyOrD_some_empty, String.append_empty]
  · simp [run_config_show_lines, hpw, pyOrD_some_self]

theorem spec_C7_witness :
    cfgW.app_password = some "pw" ∧
    4 < ("abcdefgh1234" : String).length ∧
    (run_config_show_lines { app_password := some "abcdefgh1234" } false).get? 1 =
      some "SYGMAIL_APP_PASSWORD=****1234" :=
  ⟨rfl, by decide,
    ((spec_C7 { app_password := some "abcdefgh1234" } "abcdefgh1234" rfl).1
      (by decide)).trans (by decide)⟩

/-! ### C5: template rendering -/

theorem data_mk (l : List Char) : (String.mk l).data = l := rfl

theorem containsToken_cons (c : Char) (l : List Char) :
    containsToken (c :: l) = ((((c :: l).take 13) == TOKEN.data) || containsToken l) := rfl

/-- Any text containing the placeholder token passes the `in` check. -/
theorem containsToken_append_token (s r : List Char) :
    containsToken (s ++ (TOKEN.data ++ r)) = true := by
  induction s with
  | nil => rfl
  | cons c s ih =>
    rw [List.cons_append, containsToken_cons, ih, Bool.or_true]

/-- Scanning brace-free text just copies it. -/
theorem pyFormatAux_braceFree (sn : List Char) (s : List Char) (h : braceFree s = true)
    (r : List Char) :
    pyFormatAux sn none (s ++ r) = (pyFormatAux sn none r).map fun t => s ++ t := by
  induction s with
  | nil =>
    simp
  | cons c s ih =>
    simp only [braceFree, List.all_cons, Bool.and_eq_true, Bool.not_eq_true'] at h
    obtain ⟨⟨hc1, hc2⟩, hs⟩ := h
    have hc1' : ¬ c = '{' := by simpa using hc1
    have hc2' : ¬ c = '}' := by simpa using hc2
    have hs' : braceFree s = true := by simpa [braceFree] using hs
    rw [List.cons_append, pyFormatAux.eq_def]
    simp only [if_neg hc1', if_neg hc2']
    rw [ih hs']
    simp only [Option.map_map]
    rfl

/-- Scanning the token substitutes `sn` for it. -/
theorem pyFormatAux_token (sn r : List Char) :
    pyFormatAux sn none (TOKEN.data ++ r) = (pyFormatAux sn none r).map fun t => sn ++ t := rfl

/-- A template that is brace-free text interleaved with token occurrences
formats to the same text with `sn` in place of each token. -/
theorem pyFormatAux_joinWith (sn : List Char) (parts : List (List Char))
    (hne : parts ≠ []) (h : ∀ p ∈ parts, braceFree p = true) :
    pyFormatAux sn none (joinWith TOKEN.data parts) = some (joinWith sn parts) := by
  induction parts with
  | nil => exact absurd rfl hne
  | cons p rest ih =>
    cases rest with
    | nil =>
      have hp := h p (by simp)
      have hb := pyFormatAux_braceFree sn p hp []
      rw [List.append_nil] at hb
      rw [show joinWith TOKEN.data [p] = p from rfl, hb]
      simp [joinWith]
      rfl
    | cons q rest2 =>
      have hp := h p (by simp)
      have hrest : ∀ x ∈ q :: rest2, braceFree x = true := fun x hx => h x (by simp [hx])
      rw [show joinWith TOKEN.data (p :: q :: rest2) =
            p ++ (TOKEN.data ++ joinWith TOKEN.data (q :: rest2)) from rfl,
          pyFormatAux_braceFree sn p hp, pyFormatAux_token, ih (by simp) hrest]
      rfl

/-- C5: for every body template, a template without the `{script_name}`
token is returned unchanged; a template containing the token whose
substitution fails is returned unchanged; and a template made of brace-free
text around `{script_name}` tokens renders with the base filename of the
currently running program substituted for each token. -/
theorem spec_C5 (t : String) (argv : List String) (parts : List String) :
    (containsToken t.data = false → _render_contents t (_get_script_name argv) = t) ∧
    (containsToken t.data = true → pyFormat t (_get_script_name argv) = none →
      _render_contents t (_get_script_name argv) = t) ∧
    (2 ≤ parts.length → (∀ p ∈ parts, braceFree p.data = true) →
      _render_contents (String.mk (joinWith TOKEN.data (parts.map String.data)))
          (_get_script_name argv) =
        String.mk (joinWith (_get_script_name argv).data (parts.map String.data))) := by
  refine ⟨fun h => ?_, fun h1 h2 => ?_, fun hlen hbf => ?_⟩
  · simp [_render_contents, h]
  · simp [_render_contents, h1, h2]
  · cases parts with
    | nil => simp at hlen
    | cons p rest =>
      cases rest with
      | nil => simp at hlen
      | cons q rest2 =>
        have hps : ∀ x ∈ (p :: q :: rest2).map String.data, braceFree x = true := by
          intro x hx
          simp only [List.mem_map] at hx
          obtain ⟨y, hy, rfl⟩ := hx
          exact hbf y hy
        have hcont :
            containsToken (joinWith TOKEN.data ((p :: q :: rest2).map String.data)) = true := by
          rw [show joinWith TOKEN.data ((p :: q :: rest2).map String.data) =
                p.data ++ (TOKEN.data ++ joinWith TOKEN.data ((q :: rest2).map String.data))
              from rfl]
          exact containsToken_append_token _ _
        have hfmt := pyFormatAux_joinWith (_get_script_name argv).data
          ((p :: q :: rest2).map String.data) (by simp) hps
        simp only [List.map_cons] at hcont hfmt
        simp [_render_contents, data_mk, hcont, pyFormat, hfmt]

theorem spec_C5_witness :
    _render_contents "{script_name} done" (_get_script_name ["/usr/bin/myscript.py"]) =
      "myscript.py done" := by
  have h := (spec_C5 "" ["/usr/bin/myscript.py"] ["", " done"]).2.2 (by decide) (by decide)
  exact h

/-! ### C1: save/load round trip -/

/-- A value string that the `_read_env_file` line processing hands back
unchanged: no line-boundary character (so it stays on one line through
`read_text`/`splitlines`), and no leading or trailing whitespace or quote
characters (so the two strips are the identity). -/
def CleanChars (v : List Char) : Prop :=
  (∀ c ∈ v, isLineBreak c = false) ∧
    v.dropWhile isPySpace = v ∧ v.reverse.dropWhile isPySpace = v.reverse ∧
    v.dropWhile isQuote = v ∧ v.reverse.dropWhile isQuote = v.reverse

instance (v : List Char) : Decidable (CleanChars v) :=
  inferInstanceAs (Decidable (_ ∧ _ ∧ _ ∧ _ ∧ _))

/-- `CleanChars` lifted to an optional field value (an absent value is
trivially clean). -/
def CleanOpt : Option String → Prop
  | none => True
  | some s => CleanChars s.data

instance : (o : Option String) → Decidable (CleanOpt o)
  | none => .isTrue trivial
  | some s => inferInstanceAs (Decidable (CleanChars s.data))

theorem cleanOpt_pyOrD (o : Option String) (d : String) (ho : CleanOpt o)
    (hd : CleanChars d.data) : CleanChars (pyOrD o d).data := by
  cases o with
  | none => exact hd
  | some s =>
    by_cases h : s = ""
    · subst h
      simpa [pyOrD] using hd
    · have hb : (s == "") = false := beq_eq_false_iff_ne.mpr h
      simpa [pyOrD, hb] using ho

theorem pyStrip_id (p : Char → Bool) (l : List Char) (h1 : l.dropWhile p = l)
    (h2 : l.reverse.dropWhile p = l.reverse) : pyStrip p l = l := by
  unfold pyStrip
  rw [h1, h2, List.reverse_reverse]

theorem dropWhile_keyblock (p : Char → Bool) (xs ys : List Char) (c : Char) (hp : p c = false)
    (hxs : xs.dropWhile p = xs) : (xs ++ c :: ys).dropWhile p = xs ++ c :: ys := by
  rw [List.dropWhile_append, hxs]
  cases xs with
  | nil => simp [List.dropWhile_cons, hp]
  | cons a l => simp

theorem pyStrip_keyline (p : Char → Bool) (K v : List Char) (hp : p '=' = false)
    (hK : K.dropWhile p = K) (hv : v.reverse.dropWhile p = v.reverse) :
    pyStrip p (K ++ '=' :: v) = K ++ '=' :: v := by
  unfold pyStrip
  rw [dropWhile_keyblock p K v '=' hp hK]
  rw [show (K ++ '=' :: v).reverse = v.reverse ++ '=' :: K.reverse by simp]
  rw [dropWhile_keyblock p v.reverse K.reverse '=' hp hv]
  simp

theorem splitEqAux_keyline (K : List Char) (hK : '=' ∉ K) (acc v : List Char) :
    splitEqAux acc (K ++ '=' :: v) = some (acc.reverse ++ K, v) := by
  induction K generalizing acc with
  | nil => simp [splitEqAux]
  | cons c cs ih =>
    have hc : ¬ c = '=' := fun h => hK (by simp [h])
    have hcs : '=' ∉ cs := fun h => hK (List.mem_cons_of_mem _ h)
    rw [List.cons_append, splitEqAux, if_neg hc, ih hcs (c :: acc)]
    simp

theorem splitEq_keyline (K v : List Char) (hK : '=' ∉ K) :
    splitEq (K ++ '=' :: v) = some (K, v) := by
  unfold splitEq
  rw [splitEqAux_keyline K hK [] v]
  rfl

theorem head?_append_of_ne_nil {α : Type} (l r : List α) (h : l ≠ []) :
    (l ++ r).head? = l.head? := by
  cases l with
  | nil => exact absurd rfl h
  | cons a t => rfl

/-- Processing one written `KEY=value` line records the value under the
key's field, untouched, whenever the value is clean. -/
theorem procLine_gen (vals : SygmailConfig) (v : String) (K : List Char) (f : CfgField)
    (hKsp : K.dropWhile isPySpace = K)
    (hKs : pyStrip isPySpace K = K)
    (hKeq : '=' ∉ K)
    (hKn : K ≠ [])
    (hKh : ¬ K.head? = some '#')
    (hKf : _env_key_to_field (String.mk (pyUpper K)) = some f)
    (hv : CleanChars v.data) :
    procLine vals (K ++ '=' :: v.data) = setField vals f (some v) := by
  obtain ⟨hnl, hL, hR, hqL, hqR⟩ := hv
  simp only [procLine]
  rw [pyStrip_keyline isPySpace K v.data (by decide) hKsp hR]
  rw [if_neg (by simp)]
  rw [if_neg (by rw [head?_append_of_ne_nil K _ hKn]; exact hKh)]
  rw [splitEq_keyline K v.data hKeq]
  dsimp only
  rw [hKs, pyStrip_id isPySpace v.data hL hR, pyStrip_id isQuote v.data hqL hqR]
  rw [if_neg hKn, hKf]

theorem procLine_nil (vals : SygmailConfig) : procLine vals [] = vals := rfl

theorem translateNewlines_of_no_cr (l : List Char) (h : '\r' ∉ l) :
    translateNewlines l = l := by
  induction l with
  | nil => rfl
  | cons c cs ih =>
    have hc : ¬ c = '\r' := fun hh => h (by simp [hh])
    have hih := ih fun hh => h (List.mem_cons_of_mem _ hh)
    rw [translateNewlines.eq_def]
    split <;> simp_all

theorem splitBreaks_append (l rest : List Char) (hl : ∀ c ∈ l, isLineBreak c = false) :
    splitBreaks (l ++ '\n' :: rest) = l :: splitBreaks rest := by
  induction l with
  | nil => rfl
  | cons c cs ih =>
    have hc := hl c (by simp)
    have hcs : ∀ x ∈ cs, isLineBreak x = false := fun x hx => hl x (by simp [hx])
    rw [List.cons_append, splitBreaks, if_neg (by simp [hc]), ih hcs]

theorem splitBreaks_write (lines : List (List Char)) (hne : lines ≠ [])
    (h : ∀ l ∈ lines, ∀ c ∈ l, isLineBreak c = false) :
    splitBreaks (intercalateNl lines ++ ['\n']) = lines ++ [[]] := by
  induction lines with
  | nil => exact absurd rfl hne
  | cons l ls ih =>
    cases ls with
    | nil =>
      have hl := h l (by simp)
      rw [show intercalateNl [l] = l from rfl, splitBreaks_append l [] hl]
      rfl
    | cons l2 ls2 =>
      have hl := h l (by simp)
      have hrest : ∀ x ∈ l2 :: ls2, ∀ c ∈ x, isLineBreak c = false :=
        fun x hx => h x (by simp [hx])
      rw [show intercalateNl (l :: l2 :: ls2) = l ++ '\n' :: intercalateNl (l2 :: ls2)
            from rfl,
          List.append_assoc, List.cons_append,
          splitBreaks_append l _ hl, ih (by simp) hrest]
      rfl

theorem mem_intercalateNl {c : Char} {lines : List (List Char)}
    (h : c ∈ intercalateNl lines) : c = '\n' ∨ ∃ l, l ∈ lines ∧ c ∈ l := by
  induction lines with
  | nil => simp [intercalateNl] at h
  | cons l ls ih =>
    cases ls with
    | nil => exact Or.inr ⟨l, by simp, h⟩
    | cons l2 ls2 =>
      rw [show intercalateNl (l :: l2 :: ls2) = l ++ '\n' :: intercalateNl (l2 :: ls2)
            from rfl] at h
      rcases List.mem_append.mp h with hm | hm
      · exact Or.inr ⟨l, by simp, hm⟩
      · rcases List.mem_cons.mp hm with rfl | hm
        · exact Or.inl rfl
        · rcases ih hm with h1 | ⟨x, hx1, hx2⟩
          · exact Or.inl h1
          · exact Or.inr ⟨x, List.mem_cons_of_mem _ hx1, hx2⟩

theorem splitLines_write (lines : List (List Char)) (hne : lines ≠ [])
    (h : ∀ l ∈ lines, ∀ c ∈ l, isLineBreak c = false) :
    splitLines (intercalateNl lines ++ ['\n']) = lines ++ [[]] := by
  have hcr : '\r' ∉ intercalateNl lines ++ ['\n'] := by
    intro hmem
    rcases List.mem_append.mp hmem with hm | hm
    · rcases mem_intercalateNl hm with h1 | ⟨l, hl, hc⟩
      · exact absurd h1 (by decide)
      · exact absurd (h l hl '\r' hc) (by decide)
    · simp at hm
  unfold splitLines
  rw [translateNewlines_of_no_cr _ hcr]
  exact splitBreaks_write lines hne h

theorem breakFree_line (K : List Char) (v : String)
    (hK : ∀ c ∈ K, isLineBreak c = false) (hv : ∀ c ∈ v.data, isLineBreak c = false) :
    ∀ c ∈ K ++ '=' :: v.data, isLineBreak c = false := by
  intro c hc
  rcases List.mem_append.mp hc with h | h
  · exact hK _ h
  · rcases List.mem_cons.mp h with rfl | h
    · decide
    · exact hv _ h

theorem envLookup_noEnv (k : String) : envLookup noEnv k = none := rfl

/-- C1 fails as stated, and each restriction of the amended claim is forced
by one of these failures.  (1) Saving the all-unset record and loading it
back (no environment variables) does not return the record with only
subject and body defaulted: the unset sender comes back as the empty
string, not absent.  And the round trip mangles set values that are not
clean: (2) a sender containing a carriage return is cut at it (the file
line splits in two on read), forcing the no-line-break restriction; (3) a
sender with a leading space loses it to `str.strip()`, forcing the
no-edge-whitespace restriction; (4) a sender wrapped in quotes loses them
to `.strip("\x22'")`, forcing the no-edge-quote restriction. -/
theorem spec_C1_counterexample :
    SygmailConfig.load noEnv (some (SygmailConfig.save_content {})) ≠
      { subject := some DEFAULT_SUBJECT, contents := some DEFAULT_CONTENTS_TEMPLATE } ∧
    (SygmailConfig.load noEnv
        (some (SygmailConfig.save_content { from_addr := some "a\rb" }))).from_addr =
      some "a" ∧
    (SygmailConfig.load noEnv
        (some (SygmailConfig.save_content { from_addr := some " x" }))).from_addr =
      some "x" ∧
    (SygmailConfig.load noEnv
        (some (SygmailConfig.save_content { from_addr := some "\'x\'" }))).from_addr =
      some "x" := by
  decide

/-- C1 (amended): for every configuration record whose set values carry no
line-boundary character and no leading or trailing whitespace or quote
characters (all in Python's `splitlines`/`strip` sense), saving and then
loading with no environment variables set yields the original record
except that an unset (or empty) subject or body template comes back as the
fixed default, and an unset (or empty) sender, credential, or recipient
comes back as the empty string rather than absent; the attachments path
alone round-trips exactly. -/
theorem spec_C1 (c : SygmailConfig)
    (h1 : CleanOpt c.from_addr) (h2 : CleanOpt c.app_password) (h3 : CleanOpt c.to_)
    (h4 : CleanOpt c.subject) (h5 : CleanOpt c.contents) (h6 : CleanOpt c.attachments_path) :
    SygmailConfig.load noEnv (some c.save_content) =
      { from_addr := some (pyOrD c.from_addr ""),
        app_password := some (pyOrD c.app_password ""),
        to_ := some (pyOrD c.to_ ""),
        subject := some (pyOrD c.subject DEFAULT_SUBJECT),
        contents := some (pyOrD c.contents DEFAULT_CONTENTS_TEMPLATE),
        attachments_path := c.attachments_path } := by
  have hv1 : CleanChars (pyOrD c.from_addr "").data := cleanOpt_pyOrD _ _ h1 (by decide)
  have hv2 : CleanChars (pyOrD c.app_password "").data := cleanOpt_pyOrD _ _ h2 (by decide)
  have hv3 : CleanChars (pyOrD c.to_ "").data := cleanOpt_pyOrD _ _ h3 (by decide)
  have hv4 : CleanChars (pyOrD c.subject DEFAULT_SUBJECT).data :=
    cleanOpt_pyOrD _ _ h4 (by decide)
  have hv5 : CleanChars (pyOrD c.contents DEFAULT_CONTENTS_TEMPLATE).data :=
    cleanOpt_pyOrD _ _ h5 (by decide)
  cases hap : c.attachments_path with
  | none =>
    have hlines : splitLines c.save_content =
        [(ENV_KEYS CfgField.from_addr).data ++ '=' :: (pyOrD c.from_addr "").data,
         (ENV_KEYS CfgField.app_password).data ++ '=' :: (pyOrD c.app_password "").data,
         (ENV_KEYS CfgField.to_).data ++ '=' :: (pyOrD c.to_ "").data,
         (ENV_KEYS CfgField.subject).data ++ '=' :: (pyOrD c.subject DEFAULT_SUBJECT).data,
         (ENV_KEYS CfgField.contents).data ++ '='
           :: (pyOrD c.contents DEFAULT_CONTENTS_TEMPLATE).data,
         []] := by
      simp only [SygmailConfig.save_content, SygmailConfig.save_data, hap, _write_env_file,
        List.map_cons, List.map_nil, List.append_nil]
      refine splitLines_write _ (by simp) ?_
      intro l hl
      simp only [List.mem_cons, List.not_mem_nil, or_false] at hl
      rcases hl with rfl | rfl | rfl | rfl | rfl
      · exact breakFree_line _ _ (by decide) hv1.1
      · exact breakFree_line _ _ (by decide) hv2.1
      · exact breakFree_line _ _ (by decide) hv3.1
      · exact breakFree_line _ _ (by decide) hv4.1
      · exact breakFree_line _ _ (by decide) hv5.1
    have hread : _read_env_file (some c.save_content) =
        { from_addr := some (pyOrD c.from_addr ""),
          app_password := some (pyOrD c.app_password ""),
          to_ := some (pyOrD c.to_ ""),
          subject := some (pyOrD c.subject DEFAULT_SUBJECT),
          contents := some (pyOrD c.contents DEFAULT_CONTENTS_TEMPLATE),
          attachments_path := none } := by
      simp only [_read_env_file]
      rw [hlines]
      simp only [List.foldl_cons, List.foldl_nil]
      rw [procLine_gen _ (pyOrD c.from_addr "") (ENV_KEYS CfgField.from_addr).data
            CfgField.from_addr (by decide) (by decide) (by decide) (by decide) (by decide)
            (by decide) hv1,
          procLine_gen _ (pyOrD c.app_password "") (ENV_KEYS CfgField.app_password).data
            CfgField.app_password (by decide) (by decide) (by decide) (by decide) (by decide)
            (by decide) hv2,
          procLine_gen _ (pyOrD c.to_ "") (ENV_KEYS CfgField.to_).data
            CfgField.to_ (by decide) (by decide) (by decide) (by decide) (by decide)
            (by decide) hv3,
          procLine_gen _ (pyOrD c.subject DEFAULT_SUBJECT) (ENV_KEYS CfgField.subject).data
            CfgField.subject (by decide) (by decide) (by decide) (by decide) (by decide)
            (by decide) hv4,
          procLine_gen _ (pyOrD c.contents DEFAULT_CONTENTS_TEMPLATE)
            (ENV_KEYS CfgField.contents).data CfgField.contents (by decide) (by decide)
            (by decide) (by decide) (by decide) (by decide) hv5,
          procLine_nil]
      rfl
    simp only [SygmailConfig.load, envLookup_noEnv]
    rw [hread]
    rfl
  | some p =>
    have hv6 : CleanChars p.data := by rw [hap] at h6; exact h6
    have hlines : splitLines c.save_content =
        [(ENV_KEYS CfgField.from_addr).data ++ '=' :: (pyOrD c.from_addr "").data,
         (ENV_KEYS CfgField.app_password).data ++ '=' :: (pyOrD c.app_password "").data,
         (ENV_KEYS CfgField.to_).data ++ '=' :: (pyOrD c.to_ "").data,
         (ENV_KEYS CfgField.subject).data ++ '=' :: (pyOrD c.subject DEFAULT_SUBJECT).data,
         (ENV_KEYS CfgField.contents).data ++ '='
           :: (pyOrD c.contents DEFAULT_CONTENTS_TEMPLATE).data,
         (ENV_KEYS CfgField.attachments_path).data ++ '=' :: p.data,
         []] := by
      simp only [SygmailConfig.save_content, SygmailConfig.save_data, hap, _write_env_file,
        List.map_cons, List.map_nil, List.cons_append, List.nil_append]
      refine splitLines_write _ (by simp) ?_
      intro l hl
      simp only [List.mem_cons, List.not_mem_nil, or_false] at hl
      rcases hl with rfl | rfl | rfl | rfl | rfl | rfl
      · exact breakFree_line _ _ (by decide) hv1.1
      · exact breakFree_line _ _ (by decide) hv2.1
      · exact breakFree_line _ _ (by decide) hv3.1
      · exact breakFree_line _ _ (by decide) hv4.1
      · exact breakFree_line _ _ (by decide) hv5.1
      · exact breakFree_line _ _ (by decide) hv6.1
    have hread : _read_env_file (some c.save_content) =
        { from_addr := some (pyOrD c.from_addr ""),
          app_password := some (pyOrD c.app_password ""),
          to_ := some (pyOrD c.to_ ""),
          subject := some (pyOrD c.subject DEFAULT_SUBJECT),
          contents := some (pyOrD c.contents DEFAULT_CONTENTS_TEMPLATE),
          attachments_path := some p } := by
      simp only [_read_env_file]
      rw [hlines]
      simp only [List.foldl_cons, List.foldl_nil]
      rw [procLine_gen _ (pyOrD c.from_addr "") (ENV_KEYS CfgField.from_addr).data
            CfgField.from_addr (by decide) (by decide) (by decide) (by decide) (by decide)
            (by decide) hv1,
          procLine_gen _ (pyOrD c.app_password "") (ENV_KEYS CfgField.app_password).data
            CfgField.app_password (by decide) (by decide) (by decide) (by decide) (by decide)
            (by decide) hv2,
          procLine_gen _ (pyOrD c.to_ "") (ENV_KEYS CfgField.to_).data
            CfgField.to_ (by decide) (by decide) (by decide) (by decide) (by decide)
            (by decide) hv3,
          procLine_gen _ (pyOrD c.subject DEFAULT_SUBJECT) (ENV_KEYS CfgField.subject).data
            CfgField.subject (by decide) (by decide) (by decide) (by decide) (by decide)
            (by decide) hv4,
          procLine_gen _ (pyOrD c.contents DEFAULT_CONTENTS_TEMPLATE)
            (ENV_KEYS CfgField.contents).data CfgField.contents (by decide) (by decide)
            (by decide) (by decide) (by decide) (by decide) hv5,
          procLine_gen _ p (ENV_KEYS CfgField.attachments_path).data
            CfgField.attachments_path (by decide) (by decide) (by decide) (by decide)
            (by decide) (by decide) hv6,
          procLine_nil]
      rfl
    simp only [SygmailConfig.load, envLookup_noEnv]
    rw [hread]
    rfl

theorem spec_C1_witness :
    SygmailConfig.load noEnv (some (SygmailConfig.save_content
        { from_addr := some "a@b.c", app_password := some "pw", subject := some "Hi",
                      attachments_path := some "/tmp/x" })) =
      { from_addr := some "a@b.c", app_password := some "pw", to_ := some "",
        subject := some "Hi", contents := some DEFAULT_CONTENTS_TEMPLATE,
        attachments_path := some "/tmp/x" } :=
  (spec_C1 { from_addr := some "a@b.c", app_password := some "pw", subject := some "Hi",
             attachments_path := some "/tmp/x" }
    (by decide) (by decide) (by decide) (by decide) (by decide) (by decide)).trans (by decide)
